import Mathlib

/-!
Verification of the oyez-scraping core against its specification.

Each definition below is a shallow embedding of a Python function from the
repository (file and symbol named in the doc comment).  Machine floats are
modelled as rationals, JSON values as an inductive type, Python dicts keyed
by strings as association lists, and the thread interleavings of the audio
downloader as an explicit small-step scheduler.  Timing (sleeps, jitter,
timestamps) is irrelevant to every property treated here and is omitted
from the state.
-/

namespace OyezScraping

/-- JSON values as returned by the remote API.  Mirrors the shapes the
Python code distinguishes with isinstance checks: list, dict, and
everything else (string / number / null). -/
inductive Json where
  | dict (fields : List (String × Json))
  | list (items : List Json)
  | str (s : String)
  | num (n : Int)
  | null
deriving Repr

/-- Whether a JSON value is a Python dict (isinstance(item, dict)). -/
def Json.isDict : Json → Bool
  | .dict _ => true
  | _ => false

/-- Whether a JSON value is a Python list (isinstance(response, list)). -/
def Json.isList : Json → Bool
  | .list _ => true
  | _ => false

/-- Typed errors raised by the API client layer
(infrastructure/exceptions/api_exceptions.py): OyezResourceNotFoundError
and OyezApiResponseError are the two the claims mention. -/
inductive ApiError where
  | notFound (msg : String)
  | responseFormat (msg : String)
deriving Repr, DecidableEq

/-! ## PaginationMixin
(src/oyez_scraping/infrastructure/api/pagination_mixin.py)

The page-fetch capability (self.get with the page query parameter set by
get_page_resource) is modelled as a function from the 0-indexed page
number to the JSON response.  The while-True loop of
iter_paginated_resource is embedded with a fuel parameter; a run that
terminates within the fuel computes exactly what the Python loop yields,
together with the number of page-fetch calls made. -/

/-- One step state of iter_paginated_resource: items yielded so far and
the number of fetch calls made so far. -/
structure PageRun where
  items : List Json
  calls : Nat
deriving Repr

/-- Loop body of PaginationMixin.iter_paginated_resource.  Arguments
mirror the local variables of the Python loop: the page counter, the
per_page value (none when absent or unparseable), and the
continue_pagination_on_partial_page flag of the mixin.  Termination
conditions, in source order: a non-list or empty response stops before
yielding; after yielding, a page shorter than per_page stops unless the
continue flag is set.  per_page is inferred from the length of page 0
when it was not supplied. -/
def iterPagedLoop (fetch : Nat → Json) (contOnPartial : Bool) :
    Nat → Nat → Option Nat → PageRun → PageRun
  | 0, _, _, acc => acc
  | fuel + 1, page, perPage, acc =>
    match fetch page with
    | .list xs =>
      if xs.length = 0 then { acc with calls := acc.calls + 1 }
      else
        let perPage' :=
          match perPage with
          | none => if page = 0 then some xs.length else none
          | some p => some p
        let acc' : PageRun := { items := acc.items ++ xs, calls := acc.calls + 1 }
        match perPage' with
        | some p =>
          if xs.length < p ∧ contOnPartial = false then acc'
          else iterPagedLoop fetch contOnPartial fuel (page + 1) perPage' acc'
        | none => iterPagedLoop fetch contOnPartial fuel (page + 1) perPage' acc'
    | _ => { acc with calls := acc.calls + 1 }

/-- PaginationMixin.iter_paginated_resource, materialized the way
get_paginated_resource materializes it, returning the yielded items and
the number of page-fetch calls.  perPage is the parsed per_page query
parameter. -/
def iterPaginatedResource (fetch : Nat → Json) (perPage : Option Nat)
    (contOnPartial : Bool) (fuel : Nat) : PageRun :=
  iterPagedLoop fetch contOnPartial fuel 0 perPage { items := [], calls := 0 }

/-- Concrete page-fetch function serving pages of sizes 2, 2, 2, 1, 0:
the scenario of the pagination-termination property. -/
def c2fetch : Nat → Json
  | 0 => .list [.num 0, .num 1]
  | 1 => .list [.num 2, .num 3]
  | 2 => .list [.num 4, .num 5]
  | 3 => .list [.num 6]
  | _ => .list []

/-- The 7 items of the first four pages, in order. -/
def c2items : List Json :=
  [.num 0, .num 1, .num 2, .num 3, .num 4, .num 5, .num 6]

/-! ## OyezCaseClient
(src/oyez_scraping/infrastructure/api/case_client.py)

The HTTP GET of the cases endpoint is modelled as a function from the
query parameters to the JSON response.  Encoding the parameters as query
strings (str(labels).lower(), str(per_page), str(page)) is a bijective
presentation detail and is abstracted away: the model keeps the typed
values. -/

/-- Query parameters sent to the cases endpoint by iter_all_cases. -/
structure CasesParams where
  labels : Bool
  perPage : Nat
  page : Nat
  filter : Option String
deriving Repr

/-- Maximum page size used when retrieving all pages
(OyezCaseClient.MAX_PAGE_SIZE). -/
def MaxPageSize : Nat := 1000

/-- OyezCaseClient.iter_all_cases, materialized by list() as in
get_all_cases.  Faithful to the source: with a term filter it fetches
only page 0; without one it fetches page 0, stops if that page is empty
or shorter than per_page, fetches page 1, stops if that page is shorter
than per_page, fetches page 2 and then stops unconditionally.  Only items
that are dicts are yielded.  A non-list response raises
OyezApiResponseError, which list() propagates, losing the items already
yielded. -/
def iterAllCases (get : CasesParams → Json) (labels : Bool) (perPage : Nat)
    (term : Option String) : Except ApiError (List Json) :=
  match term with
  | some t =>
    match get { labels := labels, perPage := perPage, page := 0, filter := some ("term:" ++ t) } with
    | .list xs => .ok (xs.filter Json.isDict)
    | _ => .error (.responseFormat "Expected list of cases")
  | none =>
    match get { labels := labels, perPage := perPage, page := 0, filter := none } with
    | .list xs0 =>
      if xs0.length = 0 ∨ xs0.length < perPage then .ok (xs0.filter Json.isDict)
      else
        match get { labels := labels, perPage := perPage, page := 1, filter := none } with
        | .list xs1 =>
          if xs1.length < perPage then .ok (xs0.filter Json.isDict ++ xs1.filter Json.isDict)
          else
            match get { labels := labels, perPage := perPage, page := 2, filter := none } with
            | .list xs2 =>
              .ok (xs0.filter Json.isDict ++ xs1.filter Json.isDict ++ xs2.filter Json.isDict)
            | _ => .error (.responseFormat "Expected list of cases")
        | _ => .error (.responseFormat "Expected list of cases")
    | _ => .error (.responseFormat "Expected list of cases")

/-- OyezCaseClient.get_all_cases with auto_paginate=True: delegates to
iter_all_cases with per_page = MAX_PAGE_SIZE, ignoring the per_page the
caller passed. -/
def getAllCasesAuto (get : CasesParams → Json) (labels : Bool) :
    Except ApiError (List Json) :=
  iterAllCases get labels MaxPageSize none

/-- OyezCaseClient.get_cases_by_term with auto_paginate=True: delegates
to iter_all_cases with per_page = MAX_PAGE_SIZE and the term filter,
raising OyezResourceNotFoundError when no cases come back. -/
def getCasesByTermAuto (get : CasesParams → Json) (term : String) (labels : Bool) :
    Except ApiError (List Json) :=
  match iterAllCases get labels MaxPageSize (some term) with
  | .ok cases =>
    if cases.length = 0 then .error (.notFound ("No cases found for term " ++ term))
    else .ok cases
  | .error e => .error e

/-- Modelled from the claim wording, for comparison with the source: the
fully materialized collection an auto-paginating list operation is
claimed to return, fetching page indices 0, 1, 2, ... until a page is
empty or contains fewer items than the page size, and concatenating the
items of every page.  Defined with fuel like iterPagedLoop. -/
def claimedAutoPaginate (get : CasesParams → Json) (labels : Bool) (perPage : Nat)
    (filter : Option String) : Nat → Nat → List Json → List Json
  | 0, _, acc => acc
  | fuel + 1, page, acc =>
    match get { labels := labels, perPage := perPage, page := page, filter := filter } with
    | .list xs =>
      if xs.length = 0 ∨ xs.length < perPage then acc ++ xs
      else claimedAutoPaginate get labels perPage filter fuel (page + 1) (acc ++ xs)
    | _ => acc

/-- A remote serving four full pages of MAX_PAGE_SIZE cases (pages 0-3)
and nothing after: the failing input for the auto-pagination claim. -/
def c1get : CasesParams → Json := fun p =>
  if p.page < 4 then .list (List.replicate p.perPage (.dict []))
  else .list []

/-- Filtering a page of dicts for dicts keeps every item. -/
theorem filter_isDict_replicate (n : Nat) :
    (List.replicate n (Json.dict [])).filter Json.isDict =
      List.replicate n (Json.dict []) :=
  List.filter_eq_self.mpr fun a ha => by
    rw [List.eq_of_mem_replicate ha]; rfl

/-- Item count of the collection the claim describes, evaluated on the
four-full-pages remote: every page up to index 3 contributes
MAX_PAGE_SIZE items and the empty page 4 stops the loop. -/
theorem claimedAutoPaginate_c1get_length :
    ∀ (fuel page : Nat) (acc : List Json), 5 ≤ fuel + page → page ≤ 4 →
      (claimedAutoPaginate c1get false MaxPageSize none fuel page acc).length =
        acc.length + (4 - page) * MaxPageSize := by
  intro fuel
  induction fuel with
  | zero => intro page acc h1 h2; omega
  | succ n ih =>
    intro page acc h1 h2
    by_cases hp : page < 4
    · have hget : c1get { labels := false, perPage := MaxPageSize, page := page, filter := none } =
          .list (List.replicate MaxPageSize (Json.dict [])) := by
        unfold c1get
        rw [if_pos hp]
      rw [claimedAutoPaginate]
      simp only [hget, List.length_replicate]
      rw [if_neg (by decide : ¬(MaxPageSize = 0 ∨ MaxPageSize < MaxPageSize))]
      rw [ih (page + 1) _ (by omega) (by omega)]
      simp only [List.length_append, List.length_replicate]
      have h4 : 4 - page = (4 - (page + 1)) + 1 := by omega
      rw [h4]
      ring
    · have hp4 : page = 4 := by omega
      subst hp4
      have hget : c1get { labels := false, perPage := MaxPageSize, page := 4, filter := none } =
          .list [] := by
        unfold c1get
        rw [if_neg (by decide : ¬((4 : Nat) < 4))]
      rw [claimedAutoPaginate]
      simp only [hget, List.length_nil]
      simp

/-- Value of the auto-paginating list operation on the four-full-pages
remote: only pages 0, 1 and 2 are requested, so only 3 * MAX_PAGE_SIZE of
the 4 * MAX_PAGE_SIZE available cases come back. -/
theorem getAllCasesAuto_c1get :
    getAllCasesAuto c1get false =
      .ok (List.replicate (3 * MaxPageSize) (Json.dict [])) := by
  have h0 : c1get { labels := false, perPage := MaxPageSize, page := 0, filter := none } =
      .list (List.replicate MaxPageSize (Json.dict [])) := rfl
  have h1 : c1get { labels := false, perPage := MaxPageSize, page := 1, filter := none } =
      .list (List.replicate MaxPageSize (Json.dict [])) := rfl
  have h2 : c1get { labels := false, perPage := MaxPageSize, page := 2, filter := none } =
      .list (List.replicate MaxPageSize (Json.dict [])) := rfl
  rw [getAllCasesAuto, iterAllCases]
  simp only [h0, h1, h2, List.length_replicate, filter_isDict_replicate]
  rw [if_neg (by decide : ¬(MaxPageSize = 0 ∨ MaxPageSize < MaxPageSize))]
  rw [if_neg (by decide : ¬(MaxPageSize < MaxPageSize))]
  rw [show 3 * MaxPageSize = MaxPageSize + (MaxPageSize + MaxPageSize) by ring]
  rw [List.replicate_add, List.replicate_add, List.append_assoc]

/-- Value of the auto-paginating by-term list operation on the
four-full-pages remote: only page 0 is requested. -/
theorem getCasesByTermAuto_c1get :
    getCasesByTermAuto c1get "2020" false =
      .ok (List.replicate MaxPageSize (Json.dict [])) := by
  have h0 : c1get { labels := false, perPage := MaxPageSize, page := 0, filter := some ("term:" ++ "2020") } = .list (List.replicate MaxPageSize (Json.dict [])) := rfl
  have hiter : iterAllCases c1get false MaxPageSize (some "2020") =
      .ok (List.replicate MaxPageSize (Json.dict [])) := by
    rw [iterAllCases]
    simp only [h0, filter_isDict_replicate]
  rw [getCasesByTermAuto]
  simp only [hiter, List.length_replicate]
  rw [if_neg (by decide : ¬(MaxPageSize = 0))]

/-- OyezCaseClient.get_case_by_id.  The GET of cases/term/docket is
modelled as a function from the endpoint string to the JSON response.
A list response yields its first element, or OyezResourceNotFoundError
when empty; a non-list non-dict response raises OyezApiResponseError. -/
def getCaseById (get : String → Json) (term docket : String) :
    Except ApiError Json :=
  let caseId := term ++ "/" ++ docket
  match get ("cases/" ++ caseId) with
  | .list [] => .error (.notFound ("No case found with ID " ++ caseId))
  | .list (x :: _) => .ok x
  | .dict fields => .ok (.dict fields)
  | _ => .error (.responseFormat "Expected dictionary")

/-! ## AdaptiveRateLimiter
(src/oyez_scraping/infrastructure/api/rate_limiter.py)

Float arithmetic is modelled over the rationals; the float literals of
the source (0.5, 0.9, 0.95, 1.5) are exactly representable and carried
over as rational literals.  Sleeping, jitter and the per-endpoint
last_request_time map only affect timing, never the delay-adaptation
state, and are omitted.  The three ways one attempt of the retry loop of
execute_with_rate_limit can change the state are embedded as one
function each: a successful call, a failure classified as a rate-limit
signal, and any other failure. -/

/-- Delay-adaptation state of AdaptiveRateLimiter. -/
structure RateLimiterState where
  currentDelay : ℚ
  maxDelay : ℚ
  minDelay : ℚ
  backoffFactor : ℚ
  recoveryFactor : ℚ
  consecutiveSuccesses : Nat
  consecutiveFailures : Nat
  globalDelayFloor : ℚ
deriving Repr, DecidableEq

/-- AdaptiveRateLimiter.__init__: global_delay_floor starts at min_delay
and both streak counters at zero. -/
def initRateLimiter (initialDelay maxDelay minDelay backoffFactor recoveryFactor : ℚ) :
    RateLimiterState :=
  { currentDelay := initialDelay, maxDelay := maxDelay, minDelay := minDelay,
    backoffFactor := backoffFactor, recoveryFactor := recoveryFactor,
    consecutiveSuccesses := 0, consecutiveFailures := 0, globalDelayFloor := minDelay }

/-- The limiter constructed with the default parameters of __init__:
initial_delay=1.0, max_delay=60.0, min_delay=0.5, backoff_factor=2.0,
recovery_factor=0.95. -/
def defaultRateLimiter : RateLimiterState :=
  initRateLimiter 1 60 (1 / 2) 2 (19 / 20)

/-- State change of a successful attempt in execute_with_rate_limit:
increment the success streak, clear the failure streak, shrink
current_delay toward the global floor (more aggressively after 10
consecutive successes), and after 20 consecutive successes also relax
the global floor toward min_delay.  current_delay is updated before the
floor, so the floor relaxation uses the old floor value, as in the
source. -/
def onSuccess (s : RateLimiterState) : RateLimiterState :=
  if 10 ≤ s.consecutiveSuccesses + 1 then
    { s with
      consecutiveSuccesses := s.consecutiveSuccesses + 1,
      consecutiveFailures := 0,
      currentDelay := max s.globalDelayFloor (s.currentDelay * (s.recoveryFactor * (9 / 10))),
      globalDelayFloor :=
        if 20 ≤ s.consecutiveSuccesses + 1 then
          max s.minDelay (s.globalDelayFloor * (19 / 20))
        else s.globalDelayFloor }
  else
    { s with
      consecutiveSuccesses := s.consecutiveSuccesses + 1,
      consecutiveFailures := 0,
      currentDelay := max s.globalDelayFloor (s.currentDelay * s.recoveryFactor) }

/-- State change of an attempt failing with a rate-limit-classified
error: clear the success streak, increment the failure streak, grow
current_delay by backoff_factor clamped to max_delay, and after 3
consecutive failures raise the global floor to
min(new current_delay * 0.5, old floor * 1.5).  The source assigns
current_delay first and reads it back when raising the floor, hence the
repeated min expression. -/
def onRateLimitFailure (s : RateLimiterState) : RateLimiterState :=
  { s with
    consecutiveSuccesses := 0,
    consecutiveFailures := s.consecutiveFailures + 1,
    currentDelay := min s.maxDelay (s.currentDelay * s.backoffFactor),
    globalDelayFloor :=
      if 3 ≤ s.consecutiveFailures + 1 then
        min ((min s.maxDelay (s.currentDelay * s.backoffFactor)) * (1 / 2))
          (s.globalDelayFloor * (3 / 2))
      else s.globalDelayFloor }

/-- State change of an attempt failing with any other error: only the
streak counters change; the wait before the retry uses a local backoff
(min_delay * 1.5^(retries-1)) that never touches current_delay. -/
def onOtherFailure (s : RateLimiterState) : RateLimiterState :=
  { s with consecutiveSuccesses := 0, consecutiveFailures := s.consecutiveFailures + 1 }

/-- Substring containment on character lists: the needle occurs at some
position of the haystack. -/
def hasSub (needle : List Char) : List Char → Bool
  | [] => needle.isEmpty
  | c :: rest => needle.isPrefixOf (c :: rest) || hasSub needle rest

/-- The rate-limit classifier of execute_with_rate_limit: the lowercased
error text contains one of the four throttle markers (the Python
membership test rate_term in str(e).lower()). -/
def isRateLimitError (msg : String) : Bool :=
  ["rate limit", "too many", "429", "throttl"].any fun t =>
    hasSub t.toList (msg.toList.map Char.toLower)

/-- Combined state change of a failing attempt, dispatching on the
rate-limit classifier as the except branch of the source does. -/
def onFailure (s : RateLimiterState) (msg : String) : RateLimiterState :=
  if isRateLimitError msg then onRateLimitFailure s else onOtherFailure s

/-- Reachability invariant of the delay state.  The parameter bounds
hold for the constructor defaults (and any sane configuration:
backoff of at least 2, recovery strictly shrinking, max at least twice
min) and the state bounds are established by __init__ and preserved by
every attempt, as proved below. -/
structure RLInv (s : RateLimiterState) : Prop where
  minPos : 0 < s.minDelay
  bf2 : 2 ≤ s.backoffFactor
  rfPos : 0 < s.recoveryFactor
  rfLt1 : s.recoveryFactor < 1
  minMax : 2 * s.minDelay ≤ s.maxDelay
  minFloor : s.minDelay ≤ s.globalDelayFloor
  floorMax : 2 * s.globalDelayFloor ≤ s.maxDelay
  floorCur : s.globalDelayFloor ≤ s.currentDelay
  curMax : s.currentDelay ≤ s.maxDelay

/-- A successful attempt preserves the reachability invariant. -/
theorem rlInv_onSuccess {s : RateLimiterState} (h : RLInv s) : RLInv (onSuccess s) := by
  have hfloor0 : 0 < s.globalDelayFloor := lt_of_lt_of_le h.minPos h.minFloor
  have hcur0 : 0 < s.currentDelay := lt_of_lt_of_le hfloor0 h.floorCur
  have hfloorMax : s.globalDelayFloor ≤ s.maxDelay := by linarith [h.floorMax]
  unfold onSuccess
  by_cases h10 : 10 ≤ s.consecutiveSuccesses + 1
  · rw [if_pos h10]
    have hshrink : s.currentDelay * (s.recoveryFactor * (9 / 10)) ≤ s.currentDelay := by
      nlinarith [h.rfPos, h.rfLt1, hcur0]
    have hcurNew_le : max s.globalDelayFloor (s.currentDelay * (s.recoveryFactor * (9 / 10))) ≤
        s.maxDelay := max_le hfloorMax (le_trans hshrink h.curMax)
    have hfloorNew_le : (if 20 ≤ s.consecutiveSuccesses + 1 then
        max s.minDelay (s.globalDelayFloor * (19 / 20)) else s.globalDelayFloor) ≤
        s.globalDelayFloor := by
      by_cases h20 : 20 ≤ s.consecutiveSuccesses + 1
      · rw [if_pos h20]
        exact max_le h.minFloor (by nlinarith [hfloor0])
      · rw [if_neg h20]
    have hfloorNew_ge : s.minDelay ≤ (if 20 ≤ s.consecutiveSuccesses + 1 then
        max s.minDelay (s.globalDelayFloor * (19 / 20)) else s.globalDelayFloor) := by
      by_cases h20 : 20 ≤ s.consecutiveSuccesses + 1
      · rw [if_pos h20]; exact le_max_left _ _
      · rw [if_neg h20]; exact h.minFloor
    exact {
      minPos := h.minPos, bf2 := h.bf2, rfPos := h.rfPos, rfLt1 := h.rfLt1,
      minMax := h.minMax,
      minFloor := hfloorNew_ge,
      floorMax := by
        have := h.floorMax
        simp only
        linarith [hfloorNew_le]
      floorCur := by
        simp only
        exact le_trans hfloorNew_le (le_max_left _ _)
      curMax := by
        simp only
        exact hcurNew_le }
  · rw [if_neg h10]
    have hshrink : s.currentDelay * s.recoveryFactor ≤ s.currentDelay := by
      nlinarith [h.rfPos, h.rfLt1, hcur0]
    exact {
      minPos := h.minPos, bf2 := h.bf2, rfPos := h.rfPos, rfLt1 := h.rfLt1,
      minMax := h.minMax, minFloor := h.minFloor,
      floorMax := h.floorMax,
      floorCur := le_max_left _ _,
      curMax := max_le hfloorMax (le_trans hshrink h.curMax) }

/-- A rate-limit failure preserves the reachability invariant. -/
theorem rlInv_onRateLimitFailure {s : RateLimiterState} (h : RLInv s) :
    RLInv (onRateLimitFailure s) := by
  have hfloor0 : 0 < s.globalDelayFloor := lt_of_lt_of_le h.minPos h.minFloor
  have hcur0 : 0 < s.currentDelay := lt_of_lt_of_le hfloor0 h.floorCur
  have hgrow : 2 * s.currentDelay ≤ s.currentDelay * s.backoffFactor := by
    nlinarith [h.bf2, hcur0]
  have hcurNew_ge : 2 * s.globalDelayFloor ≤ min s.maxDelay (s.currentDelay * s.backoffFactor) :=
    le_min h.floorMax (by linarith [h.floorCur])
  have hcurNew_le : min s.maxDelay (s.currentDelay * s.backoffFactor) ≤ s.maxDelay :=
    min_le_left _ _
  have hfloorNew_le : (if 3 ≤ s.consecutiveFailures + 1 then
      min ((min s.maxDelay (s.currentDelay * s.backoffFactor)) * (1 / 2))
        (s.globalDelayFloor * (3 / 2)) else s.globalDelayFloor) ≤
      (min s.maxDelay (s.currentDelay * s.backoffFactor)) * (1 / 2) := by
    by_cases h3 : 3 ≤ s.consecutiveFailures + 1
    · rw [if_pos h3]; exact min_le_left _ _
    · rw [if_neg h3]; linarith [hcurNew_ge]
  have hfloorNew_ge : s.minDelay ≤ (if 3 ≤ s.consecutiveFailures + 1 then
      min ((min s.maxDelay (s.currentDelay * s.backoffFactor)) * (1 / 2))
        (s.globalDelayFloor * (3 / 2)) else s.globalDelayFloor) := by
    by_cases h3 : 3 ≤ s.consecutiveFailures + 1
    · rw [if_pos h3]
      exact le_min (by linarith [hcurNew_ge, h.minFloor]) (by linarith [h.minFloor, hfloor0])
    · rw [if_neg h3]; exact h.minFloor
  unfold onRateLimitFailure
  exact {
    minPos := h.minPos, bf2 := h.bf2, rfPos := h.rfPos, rfLt1 := h.rfLt1,
    minMax := h.minMax,
    minFloor := hfloorNew_ge,
    floorMax := by simp only; linarith [hfloorNew_le, hcurNew_le],
    floorCur := by simp only; linarith [hfloorNew_le, hcurNew_ge, hfloor0],
    curMax := by simp only; exact hcurNew_le }

/-- A non-rate-limit failure preserves the reachability invariant. -/
theorem rlInv_onOtherFailure {s : RateLimiterState} (h : RLInv s) :
    RLInv (onOtherFailure s) :=
  { minPos := h.minPos, bf2 := h.bf2, rfPos := h.rfPos, rfLt1 := h.rfLt1,
    minMax := h.minMax, minFloor := h.minFloor, floorMax := h.floorMax,
    floorCur := h.floorCur, curMax := h.curMax }

/-- A failing attempt of either classification preserves the invariant. -/
theorem rlInv_onFailure {s : RateLimiterState} (h : RLInv s) (msg : String) :
    RLInv (onFailure s msg) := by
  unfold onFailure
  by_cases hm : isRateLimitError msg
  · rw [if_pos hm]; exact rlInv_onRateLimitFailure h
  · rw [if_neg hm]; exact rlInv_onOtherFailure h

/-- The current delay after a successful attempt is the old floor maxed
with the old delay shrunk by one of the two recovery multipliers. -/
theorem onSuccess_currentDelay (s : RateLimiterState) :
    (onSuccess s).currentDelay =
        max s.globalDelayFloor (s.currentDelay * (s.recoveryFactor * (9 / 10))) ∨
      (onSuccess s).currentDelay =
        max s.globalDelayFloor (s.currentDelay * s.recoveryFactor) := by
  unfold onSuccess
  by_cases h10 : 10 ≤ s.consecutiveSuccesses + 1
  · rw [if_pos h10]; left; rfl
  · rw [if_neg h10]; right; rfl

/-- A state reached after two consecutive failures, used to exercise the
floor-raising branch. -/
def twoFailuresState : RateLimiterState :=
  { defaultRateLimiter with consecutiveFailures := 2 }

/-- A successful attempt leaves min_delay untouched. -/
theorem onSuccess_minDelay (s : RateLimiterState) :
    (onSuccess s).minDelay = s.minDelay := by
  unfold onSuccess
  split <;> rfl

/-- A failing attempt of either classification leaves min_delay
untouched. -/
theorem onFailure_minDelay (s : RateLimiterState) (msg : String) :
    (onFailure s msg).minDelay = s.minDelay := by
  unfold onFailure onRateLimitFailure onOtherFailure
  split <;> rfl

/-! ## RawDataCache and RawDataScraperService
(src/oyez_scraping/infrastructure/storage/cache.py and
src/oyez_scraping/services/raw_data_scraper.py)

The cache keeps a JSON index (whose cases table maps case ids to entry
metadata) plus blob files on disk.  The model keeps the parts the claims
read: the set of indexed case ids and the blob files keyed by their
path.  Entry metadata the claims never read (cached_at timestamps, the
has_audio flag, the path string stored inside the entry) is dropped.
Timestamps aside, get_case_data returns exactly the JSON blob the path
derived from the case id points at. -/

/-- Failure raised by every cache method (storage_exceptions.CacheError). -/
inductive CacheFailure where
  | cacheError (msg : String)
deriving Repr, DecidableEq

/-- Association-list lookup, modelling a Python dict read. -/
def lookupAssoc {α : Type} : List (String × α) → String → Option α
  | [], _ => none
  | (k0, v0) :: rest, k => if k0 = k then some v0 else lookupAssoc rest k

/-- Association-list write, modelling a Python dict assignment (and a
file overwrite at a path). -/
def setAssoc {α : Type} : List (String × α) → String → α → List (String × α)
  | [], k, v => [(k, v)]
  | (k0, v0) :: rest, k, v =>
    if k0 = k then (k, v) :: rest else (k0, v0) :: setAssoc rest k v

/-- Writing a key then reading it back yields the written value. -/
theorem lookupAssoc_setAssoc {α : Type} (l : List (String × α)) (k : String) (v : α) :
    lookupAssoc (setAssoc l k v) k = some v := by
  induction l with
  | nil => simp [setAssoc, lookupAssoc]
  | cons kv rest ih =>
    by_cases hk : kv.1 = k
    · simp [setAssoc, hk, lookupAssoc]
    · simp [setAssoc, hk, lookupAssoc, ih]

/-- RawDataCache._get_case_path: slashes in the case id become dashes
(str.replace with a one-character pattern), placed under the cases
subdirectory with a .json suffix. -/
def getCasePath (caseId : String) : String :=
  "cases/" ++ String.mk (caseId.toList.map fun c => if c = '/' then '-' else c) ++ ".json"

/-- The cache state the case claims read: the case table of the index
and the blob files. -/
structure CaseCache where
  indexCases : List String
  files : List (String × Json)
deriving Repr

/-- The cache of a fresh empty cache directory. -/
def emptyCaseCache : CaseCache := { indexCases := [], files := [] }

/-- RawDataCache.case_exists: membership in the cases table of the
index. -/
def caseExists (c : CaseCache) (caseId : String) : Bool :=
  decide (caseId ∈ c.indexCases)

/-- RawDataCache.get_case_data: CacheError when the id is not indexed,
otherwise the blob at the derived path (CacheError when the read
fails, that is, when no blob is at that path). -/
def getCaseData (c : CaseCache) (caseId : String) : Except CacheFailure Json :=
  if caseExists c caseId then
    match lookupAssoc c.files (getCasePath caseId) with
    | some d => .ok d
    | none => .error (.cacheError "Failed to read case data")
  else .error (.cacheError ("Case " ++ caseId ++ " not found in cache"))

/-- RawDataCache.store_case_data: write the blob file at the derived
path, then create or overwrite the index entry for the id (one cache
write as the claims count writes). -/
def storeCaseData (c : CaseCache) (caseId : String) (caseData : Json) : CaseCache :=
  { files := setAssoc c.files (getCasePath caseId) caseData,
    indexCases := if caseId ∈ c.indexCases then c.indexCases else caseId :: c.indexCases }

/-- A store makes the id indexed. -/
theorem caseExists_storeCaseData (c : CaseCache) (caseId : String) (d : Json) :
    caseExists (storeCaseData c caseId d) caseId = true := by
  unfold caseExists storeCaseData
  by_cases hm : caseId ∈ c.indexCases
  · simp [hm]
  · simp [hm]

/-- A store followed by a read of the same id returns the stored data. -/
theorem getCaseData_storeCaseData (c : CaseCache) (caseId : String) (d : Json) :
    getCaseData (storeCaseData c caseId d) caseId = .ok d := by
  unfold getCaseData
  rw [caseExists_storeCaseData]
  simp only [if_true]
  have : (storeCaseData c caseId d).files = setAssoc c.files (getCasePath caseId) d := rfl
  rw [this, lookupAssoc_setAssoc]

/-- Result of one scrape_case call, together with the observable effect
counts the idempotence claim talks about: how many network fetches and
how many cache writes the call performed. -/
structure ScrapeOutcome where
  data : Json
  cache : CaseCache
  netCalls : Nat
  cacheWrites : Nat

/-- RawDataScraperService.scrape_case.  The network fetch
(api_client.get_case_by_id on a successful response) is modelled as a
function from term and docket to the case JSON; network errors abort
the call before any cache effect and are outside this claim.  With the
record cached and force_refresh false the call reads the cache and
touches the network zero times; otherwise it fetches once and stores
once. -/
def scrapeCase (net : String → String → Json) (c : CaseCache)
    (term docket : String) (forceRefresh : Bool) : Except CacheFailure ScrapeOutcome :=
  let caseId := term ++ "/" ++ docket
  if forceRefresh = false ∧ caseExists c caseId = true then
    match getCaseData c caseId with
    | .ok d => .ok { data := d, cache := c, netCalls := 0, cacheWrites := 0 }
    | .error e => .error e
  else
    let d := net term docket
    .ok { data := d, cache := storeCaseData c caseId d, netCalls := 1, cacheWrites := 1 }

/-- Network function for the idempotence witness: the payload embeds the
request, so distinct requests are distinguishable. -/
def c3net : String → String → Json := fun term docket =>
  .dict [("ID", .str (term ++ "/" ++ docket))]

/-! ## DownloadTracker
(src/oyez_scraping/infrastructure/storage/download_tracker.py)

failed_items is a dict from item id to a record holding the submitted
item_data and the attempts count (the last_attempt timestamp is
dropped), modelled as an association list whose reachable states have
unique keys.  Persistence (_save_tracker after every mutation) swallows
its own errors and never changes failed_items, so the mutations are
modelled as pure state transformers. -/

/-- One entry of failed_items. -/
structure FailedItem where
  itemData : Json
  attempts : Nat
deriving Repr

/-- The in-memory state of a DownloadTracker. -/
structure DownloadTracker where
  failedItems : List (String × FailedItem)
  maxRetryAttempts : Nat
deriving Repr

/-- Increment the attempts counter of an existing key, as the then
branch of mark_failed does. -/
def bumpAttempts : List (String × FailedItem) → String → List (String × FailedItem)
  | [], _ => []
  | (k, v) :: rest, id =>
    if k = id then (k, { v with attempts := v.attempts + 1 }) :: rest
    else (k, v) :: bumpAttempts rest id

/-- DownloadTracker.mark_failed: bump the attempts of a known item, or
record a first failure with attempts = 1 (dict insertion appends). -/
def markFailed (t : DownloadTracker) (itemId : String) (itemData : Json) : DownloadTracker :=
  if (lookupAssoc t.failedItems itemId).isSome then
    { t with failedItems := bumpAttempts t.failedItems itemId }
  else
    { t with failedItems := t.failedItems ++ [(itemId, { itemData := itemData, attempts := 1 })] }

/-- DownloadTracker.mark_successful: delete the key if present. -/
def markSuccessful (t : DownloadTracker) (itemId : String) : DownloadTracker :=
  { t with failedItems := t.failedItems.filter fun kv => kv.1 ≠ itemId }

/-- DownloadTracker.get_failed_items_for_retry: the (id, item_data)
pairs of entries whose attempts count has not exceeded the retry
limit. -/
def getFailedItemsForRetry (t : DownloadTracker) : List (String × Json) :=
  t.failedItems.filterMap fun kv =>
    if kv.2.attempts ≤ t.maxRetryAttempts then some (kv.1, kv.2.itemData) else none

/-- The counters returned by DownloadTracker.get_stats. -/
structure TrackerStats where
  totalFailed : Nat
  retriable : Nat
  permanentFailures : Nat
deriving Repr, DecidableEq

/-- DownloadTracker.get_stats: the loop counts each entry into exactly
one of the two buckets and total_failed is the dict size. -/
def getStats (t : DownloadTracker) : TrackerStats :=
  { totalFailed := t.failedItems.length,
    retriable := t.failedItems.countP fun kv => decide (kv.2.attempts ≤ t.maxRetryAttempts),
    permanentFailures := t.failedItems.countP fun kv => !decide (kv.2.attempts ≤ t.maxRetryAttempts) }

/-- DownloadTracker.reset: clear all failed items. -/
def resetTracker (t : DownloadTracker) : DownloadTracker :=
  { t with failedItems := [] }

/-- mark_failed applied n times in a row for the same item. -/
def markFailedTimes (t : DownloadTracker) (id : String) (d : Json) : Nat → DownloadTracker
  | 0 => t
  | n + 1 => markFailed (markFailedTimes t id d n) id d

/-- The mutations of the tracker the stats claim ranges over. -/
inductive TrackerOp where
  | fail (id : String) (d : Json)
  | succeed (id : String)
  | clear

/-- Apply one tracker mutation. -/
def applyTrackerOp (t : DownloadTracker) : TrackerOp → DownloadTracker
  | .fail id d => markFailed t id d
  | .succeed id => markSuccessful t id
  | .clear => resetTracker t

/-- Apply a sequence of tracker mutations. -/
def applyTrackerOps (t : DownloadTracker) (ops : List TrackerOp) : DownloadTracker :=
  ops.foldl applyTrackerOp t

/-- A key is absent exactly when it is not among the keys. -/
theorem lookupAssoc_eq_none {α : Type} (l : List (String × α)) (k : String) :
    lookupAssoc l k = none ↔ k ∉ l.map Prod.fst := by
  induction l with
  | nil => simp [lookupAssoc]
  | cons kv rest ih =>
    rw [List.map_cons]
    simp only [List.mem_cons, not_or]
    by_cases hk : kv.1 = k
    · subst hk
      simp [lookupAssoc]
    · rw [lookupAssoc, if_neg hk, ih]
      constructor
      · intro h
        exact ⟨fun he => hk he.symm, h⟩
      · rintro ⟨_, h⟩
        exact h

/-- On unique keys, list membership and lookup agree. -/
theorem mem_iff_lookupAssoc {α : Type} {l : List (String × α)}
    (hnd : (l.map Prod.fst).Nodup) (k : String) (v : α) :
    (k, v) ∈ l ↔ lookupAssoc l k = some v := by
  induction l with
  | nil => simp [lookupAssoc]
  | cons kv rest ih =>
    rw [List.map_cons, List.nodup_cons] at hnd
    rw [List.mem_cons, lookupAssoc]
    by_cases hk : kv.1 = k
    · rw [if_pos hk]
      constructor
      · rintro (h | h)
        · rw [← h]
        · exact absurd (List.mem_map_of_mem Prod.fst h) (hk ▸ hnd.1)
      · intro h
        injection h with h2
        exact Or.inl (Prod.ext hk h2).symm
    · rw [if_neg hk, ih hnd.2]
      constructor
      · rintro (h | h)
        · exact absurd (congrArg Prod.fst h).symm hk
        · exact h
      · exact Or.inr

/-- Bumping an attempts counter does not change the key sequence. -/
theorem map_fst_bumpAttempts (l : List (String × FailedItem)) (id : String) :
    (bumpAttempts l id).map Prod.fst = l.map Prod.fst := by
  induction l with
  | nil => rfl
  | cons kv rest ih =>
    by_cases hk : kv.1 = id
    · simp [bumpAttempts, hk]
    · simp [bumpAttempts, hk, ih]

/-- Bumping a present key increments exactly its attempts counter. -/
theorem lookupAssoc_bumpAttempts {l : List (String × FailedItem)} {id : String}
    {v : FailedItem} (h : lookupAssoc l id = some v) :
    lookupAssoc (bumpAttempts l id) id = some { v with attempts := v.attempts + 1 } := by
  induction l with
  | nil => simp [lookupAssoc] at h
  | cons kv rest ih =>
    by_cases hk : kv.1 = id
    · rw [lookupAssoc, if_pos hk] at h
      cases h
      simp [bumpAttempts, hk, lookupAssoc]
    · rw [lookupAssoc, if_neg hk] at h
      simp [bumpAttempts, hk, lookupAssoc, ih h]

/-- Appending a fresh key makes it found with the appended value. -/
theorem lookupAssoc_append_fresh {α : Type} {l : List (String × α)} {k : String}
    (h : lookupAssoc l k = none) (v : α) :
    lookupAssoc (l ++ [(k, v)]) k = some v := by
  induction l with
  | nil => simp [lookupAssoc]
  | cons kv rest ih =>
    by_cases hk : kv.1 = k
    · rw [lookupAssoc, if_pos hk] at h
      cases h
    · rw [lookupAssoc, if_neg hk] at h
      simp [lookupAssoc, hk, ih h]

/-- mark_failed leaves the retry limit unchanged. -/
theorem markFailed_maxRetryAttempts (t : DownloadTracker) (id : String) (d : Json) :
    (markFailed t id d).maxRetryAttempts = t.maxRetryAttempts := by
  unfold markFailed
  split <;> rfl

/-- mark_failed keeps the keys unique. -/
theorem markFailed_nodupKeys {t : DownloadTracker}
    (hnd : (t.failedItems.map Prod.fst).Nodup) (id : String) (d : Json) :
    ((markFailed t id d).failedItems.map Prod.fst).Nodup := by
  unfold markFailed
  by_cases hs : (lookupAssoc t.failedItems id).isSome
  · rw [if_pos hs]
    simpa [map_fst_bumpAttempts] using hnd
  · rw [if_neg hs]
    have hnone : lookupAssoc t.failedItems id = none := by
      cases h : lookupAssoc t.failedItems id
      · rfl
      · exact absurd (by simp [h]) hs
    have hnotmem := (lookupAssoc_eq_none t.failedItems id).mp hnone
    simp only [List.map_append, List.map_cons, List.map_nil]
    rw [List.nodup_append]
    refine ⟨hnd, List.nodup_singleton id, ?_⟩
    intro a ha hb
    rw [List.mem_singleton] at hb
    subst hb
    exact hnotmem ha

/-- After n+1 consecutive mark_failed calls on a fresh id, the entry
carries the submitted payload and an attempts count of n+1, the retry
limit is unchanged, and the keys stay unique. -/
theorem markFailedTimes_lookup {t : DownloadTracker} {id : String} (d : Json)
    (hnd : (t.failedItems.map Prod.fst).Nodup)
    (habs : lookupAssoc t.failedItems id = none) :
    ∀ n : Nat,
      lookupAssoc (markFailedTimes t id d (n + 1)).failedItems id =
          some { itemData := d, attempts := n + 1 } ∧
        (markFailedTimes t id d (n + 1)).maxRetryAttempts = t.maxRetryAttempts ∧
        ((markFailedTimes t id d (n + 1)).failedItems.map Prod.fst).Nodup := by
  intro n
  induction n with
  | zero =>
    refine ⟨?_, markFailed_maxRetryAttempts t id d, markFailed_nodupKeys hnd id d⟩
    unfold markFailedTimes markFailedTimes markFailed
    rw [if_neg (by simp [habs])]
    exact lookupAssoc_append_fresh habs _
  | succ n ih =>
    obtain ⟨hl, hm, hn⟩ := ih
    refine ⟨?_, ?_, ?_⟩
    · show lookupAssoc (markFailed (markFailedTimes t id d (n + 1)) id d).failedItems id = _
      unfold markFailed
      rw [if_pos (by simp [hl])]
      simpa using lookupAssoc_bumpAttempts hl
    · show (markFailed (markFailedTimes t id d (n + 1)) id d).maxRetryAttempts = _
      rw [markFailed_maxRetryAttempts, hm]
    · exact markFailed_nodupKeys hn id d

/-- Membership in the retry list characterized by the failed-items
table. -/
theorem mem_getFailedItemsForRetry (t : DownloadTracker) (id : String) (d : Json) :
    (id, d) ∈ getFailedItemsForRetry t ↔
      ∃ it : FailedItem, (id, it) ∈ t.failedItems ∧
        it.attempts ≤ t.maxRetryAttempts ∧ d = it.itemData := by
  unfold getFailedItemsForRetry
  rw [List.mem_filterMap]
  constructor
  · rintro ⟨⟨k, it⟩, hmem, hif⟩
    by_cases hle : it.attempts ≤ t.maxRetryAttempts
    · rw [if_pos hle] at hif
      obtain ⟨rfl, rfl⟩ : k = id ∧ it.itemData = d := by
        injection hif with h
        exact ⟨congrArg Prod.fst h, congrArg Prod.snd h⟩
      exact ⟨it, hmem, hle, rfl⟩
    · rw [if_neg hle] at hif
      cases hif
  · rintro ⟨it, hmem, hle, rfl⟩
    exact ⟨(id, it), hmem, by rw [if_pos hle]⟩

/-- Deleting a key makes lookups of it fail. -/
theorem lookupAssoc_filter_ne {α : Type} (l : List (String × α)) (k : String) :
    lookupAssoc (l.filter fun kv => kv.1 ≠ k) k = none := by
  induction l with
  | nil => rfl
  | cons kv rest ih =>
    by_cases hk : kv.1 = k
    · simpa [List.filter, hk] using ih
    · simpa [List.filter, hk, lookupAssoc] using ih

/-- Counting the entries at or below an attempts bound and those above
it exhausts the list. -/
theorem length_countP_attempts (l : List (String × FailedItem)) (m : Nat) :
    l.length = (l.countP fun kv => decide (kv.2.attempts ≤ m)) +
      (l.countP fun kv => !decide (kv.2.attempts ≤ m)) := by
  induction l with
  | nil => rfl
  | cons kv rest ih =>
    simp only [List.length_cons, List.countP_cons, ih]
    by_cases h : kv.2.attempts ≤ m <;> simp [h] <;> omega

/-- The stats counters partition the failed set for every tracker
state. -/
theorem getStats_partition (t : DownloadTracker) :
    (getStats t).totalFailed = (getStats t).retriable + (getStats t).permanentFailures :=
  length_countP_attempts t.failedItems t.maxRetryAttempts

/-- What the constructor finds at the tracker persistence path: no file,
a file that open or json.load rejects, or a parsed JSON document whose
failed_items key may be absent (data.get defaults it to an empty
dict). -/
inductive TrackerFileState where
  | missing
  | unreadable (msg : String)
  | parsed (failedItems : Option (List (String × FailedItem)))

/-- A Python try/except block: the handler consumes any exception the
body raises. -/
def pyTry {α : Type} (body : Except String α) (handler : String → α) : α :=
  match body with
  | .ok a => a
  | .error e => handler e

/-- DownloadTracker._load_or_initialize_tracker.  The outer try/except
wraps everything and falls back to an empty failed set; inside it, a
present file is read under an inner try/except that also falls back to
empty, and a missing file leads to creating the directory (which may
raise into the outer handler) and persisting a fresh tracker through
_save_tracker, which swallows its own errors.  Totality of this
function is the no-exception-propagates part of the claim. -/
def loadOrInitTracker (fs : TrackerFileState)
    (mkdirResult saveResult : Except String Unit) : List (String × FailedItem) :=
  pyTry
    (match fs with
     | .missing => do
        mkdirResult
        let _ : Unit := pyTry saveResult fun _ => ()
        pure []
     | .unreadable e => pure (pyTry (Except.error e) fun _ => [])
     | .parsed none => pure []
     | .parsed (some items) => pure items)
    (fun _ => [])

/-- DownloadTracker.__init__: store the configuration and load or
initialize the failed set. -/
def constructTracker (fs : TrackerFileState)
    (mkdirResult saveResult : Except String Unit) (maxRetryAttempts : Nat) :
    DownloadTracker :=
  { failedItems := loadOrInitTracker fs mkdirResult saveResult,
    maxRetryAttempts := maxRetryAttempts }

/-- A tracker with an empty failed set and the default retry limit of
3, for the retry-bounding witness. -/
def c6FreshTracker : DownloadTracker := { failedItems := [], maxRetryAttempts := 3 }

/-- A tracker holding one failed item, for the mark-successful
witness. -/
def c6FailedTracker : DownloadTracker :=
  { failedItems := [("a", { itemData := Json.null, attempts := 1 })], maxRetryAttempts := 3 }

/-! ## AudioDownloader.download_audio_file
(src/oyez_scraping/infrastructure/processing/audio_downloader.py)

Concurrent callers for one asset key are modelled as a small-step
transition system: each thread runs the body of download_audio_file,
whose atomic steps are (1) the cache existence check, (2) the locked
in-progress check that either starts waiting on the current event or
registers a fresh threading.Event, (3) the network download (HEAD plus
streamed GET), (4) the cache store, and (5) the locked finally block
that sets the event and removes the in-progress entry.  A waiting
thread finishes once the event it holds has been set.  Events are
identified by the registration counter since each registration creates
a new Event object.  All threads request the same URL, so every exit
path returns the same content id, _generate_content_id(url), a pure
function of the URL.  A schedule is the sequence of thread indices
granted one atomic step each; downloads counts network GETs. -/

/-- Program counter of one thread inside download_audio_file. -/
inductive DlPc where
  | checkCache
  | lockCheck
  | download (g : Nat)
  | store (g : Nat)
  | release (g : Nat)
  | waiting (g : Nat)
  | done
deriving Repr, DecidableEq

/-- Shared state of the downloader plus the per-thread program
counters: whether the asset is cached, the downloads_in_progress entry
for the key (the generation of the registered Event, if any), the next
Event generation, the set of Events already set, and the number of
network downloads performed. -/
structure DlState where
  cached : Bool
  inProg : Option Nat
  nextGen : Nat
  eventsSet : List Nat
  downloads : Nat
  threads : List DlPc
deriving Repr, DecidableEq

/-- One atomic step of a thread at a given program counter (none when
the thread index does not exist, a no-op). -/
def dlStepPc (s : DlState) (t : Nat) : Option DlPc → DlState
  | some .checkCache =>
    if s.cached then { s with threads := s.threads.set t .done }
    else { s with threads := s.threads.set t .lockCheck }
  | some .lockCheck =>
    match s.inProg with
    | some g => { s with threads := s.threads.set t (.waiting g) }
    | none =>
      { s with
        inProg := some s.nextGen,
        nextGen := s.nextGen + 1,
        threads := s.threads.set t (.download s.nextGen) }
  | some (.download g) =>
    { s with downloads := s.downloads + 1, threads := s.threads.set t (.store g) }
  | some (.store g) =>
    { s with cached := true, threads := s.threads.set t (.release g) }
  | some (.release g) =>
    { s with
      eventsSet := g :: s.eventsSet,
      inProg := none,
      threads := s.threads.set t .done }
  | some (.waiting g) =>
    if g ∈ s.eventsSet then { s with threads := s.threads.set t .done } else s
  | some .done => s
  | none => s

/-- One atomic step of thread t. -/
def dlStep (s : DlState) (t : Nat) : DlState :=
  dlStepPc s t s.threads[t]?

/-- Run a schedule of thread steps. -/
def dlRun (s : DlState) (sched : List Nat) : DlState :=
  sched.foldl dlStep s

/-- n threads about to call download_audio_file against a cold cache. -/
def dlInit (n : Nat) : DlState :=
  { cached := false, inProg := none, nextGen := 0, eventsSet := [],
    downloads := 0, threads := List.replicate n .checkCache }

/-- A thread holds an in-flight fetch while it is between registering
the in-progress entry and releasing it (network download, cache store,
finally block). -/
def inFlight : DlPc → Bool
  | .download _ => true
  | .store _ => true
  | .release _ => true
  | _ => false

/-- Replacing one element changes a countP by the difference of the
predicate at the old and new values. -/
theorem countP_set_get {α : Type} (p : α → Bool) :
    ∀ (l : List α) (t : Nat) (a b : α), l[t]? = some a →
      (l.set t b).countP p + (if p a then 1 else 0) =
        l.countP p + (if p b then 1 else 0) := by
  intro l
  induction l with
  | nil =>
    intro t a b h
    simp at h
  | cons x rest ih =>
    intro t a b h
    cases t with
    | zero =>
      rw [List.getElem?_cons_zero] at h
      injection h with h
      subst h
      simp only [List.set_cons_zero, List.countP_cons]
      omega
    | succ n =>
      rw [List.getElem?_cons_succ] at h
      simp only [List.set_cons_succ, List.countP_cons]
      have := ih n a b h
      omega

/-- An element satisfying the predicate makes its countP positive. -/
theorem countP_one_le_of_get {α : Type} (p : α → Bool) :
    ∀ (l : List α) (t : Nat) (a : α), l[t]? = some a → p a = true →
      1 ≤ l.countP p := by
  intro l
  induction l with
  | nil =>
    intro t a h _
    simp at h
  | cons x rest ih =>
    intro t a h hp
    cases t with
    | zero =>
      rw [List.getElem?_cons_zero] at h
      injection h with h
      subst h
      simp [List.countP_cons, hp]
    | succ n =>
      rw [List.getElem?_cons_succ] at h
      have := ih n a h hp
      simp only [List.countP_cons]
      omega

/-- The deduplication invariant: a thread is in flight exactly when the
in-progress entry for the key is registered, and never more than one at
a time. -/
def DlInv (s : DlState) : Prop :=
  s.threads.countP inFlight = if s.inProg.isSome then 1 else 0

/-- Every atomic step preserves the deduplication invariant: entering
the in-flight section requires observing an empty in-progress entry
under the lock and immediately registers it. -/
theorem dlInv_step {s : DlState} (h : DlInv s) (t : Nat) : DlInv (dlStep s t) := by
  unfold DlInv at h ⊢
  unfold dlStep
  cases hget : s.threads[t]? with
  | none => exact h
  | some pc =>
    cases pc with
    | checkCache =>
      have hcnt := countP_set_get inFlight s.threads t _ DlPc.done hget
      have hcnt2 := countP_set_get inFlight s.threads t _ DlPc.lockCheck hget
      simp [inFlight] at hcnt hcnt2
      by_cases hc : s.cached = true <;> simp [dlStepPc, hc] <;> omega
    | lockCheck =>
      cases hip : s.inProg with
      | some g =>
        have hcnt := countP_set_get inFlight s.threads t _ (DlPc.waiting g) hget
        simp [inFlight] at hcnt
        rw [hip, Option.isSome_some, if_pos rfl] at h
        simp only [dlStepPc, hip]
        show List.countP inFlight (s.threads.set t (DlPc.waiting g)) =
          if (some g).isSome = true then 1 else 0
        rw [Option.isSome_some, if_pos rfl]
        omega
      | none =>
        have hcnt := countP_set_get inFlight s.threads t _ (DlPc.download s.nextGen) hget
        simp [inFlight] at hcnt
        rw [hip, Option.isSome_none, if_neg Bool.false_ne_true] at h
        simp only [dlStepPc, hip]
        show List.countP inFlight (s.threads.set t (DlPc.download s.nextGen)) =
          if (some s.nextGen).isSome = true then 1 else 0
        rw [Option.isSome_some, if_pos rfl]
        omega
    | download g =>
      have hcnt := countP_set_get inFlight s.threads t _ (DlPc.store g) hget
      simp [inFlight] at hcnt
      simp [dlStepPc]
      omega
    | store g =>
      have hcnt := countP_set_get inFlight s.threads t _ (DlPc.release g) hget
      simp [inFlight] at hcnt
      simp [dlStepPc]
      omega
    | release g =>
      have hcnt := countP_set_get inFlight s.threads t _ DlPc.done hget
      have hone := countP_one_le_of_get inFlight s.threads t _ hget rfl
      simp [inFlight] at hcnt
      simp only [dlStepPc]
      show List.countP inFlight (s.threads.set t DlPc.done) =
        if (none : Option Nat).isSome = true then 1 else 0
      rw [Option.isSome_none, if_neg Bool.false_ne_true]
      cases hip : s.inProg with
      | some g2 =>
        rw [hip, Option.isSome_some, if_pos rfl] at h
        omega
      | none =>
        rw [hip, Option.isSome_none, if_neg Bool.false_ne_true] at h
        omega
    | waiting g =>
      by_cases hw : g ∈ s.eventsSet
      · have hcnt := countP_set_get inFlight s.threads t _ DlPc.done hget
        simp [inFlight] at hcnt
        simp [dlStepPc, hw]
        omega
      · simp only [dlStepPc, if_neg hw]
        exact h
    | done => exact h

/-- The invariant holds along every schedule. -/
theorem dlInv_run {s : DlState} (h : DlInv s) (sched : List Nat) :
    DlInv (dlRun s sched) := by
  induction sched generalizing s with
  | nil => exact h
  | cons t rest ih => exact ih (dlInv_step h t)

/-- The invariant holds initially: no thread is in flight and nothing
is registered. -/
theorem dlInv_init (n : Nat) : DlInv (dlInit n) := by
  unfold DlInv dlInit
  simp only [Option.isSome_none, if_neg Bool.false_ne_true]
  rw [List.countP_eq_zero]
  intro a ha
  rw [List.eq_of_mem_replicate ha]
  decide

/-- The interleaving of two callers that breaks exactly-once: thread 1
races through the whole download while thread 0 sits between its cache
check and the lock, then thread 0 registers afresh and downloads
again. -/
def c7Schedule : List Nat := [0, 1, 1, 1, 1, 1, 0, 0, 0, 0]

end OyezScraping

open OyezScraping (Json ApiError)

/-- Claim C4: under the reachability invariant, an attempt failing with
a rate-limit-classified error strictly increases current_delay while it
is below max_delay and never takes it above max_delay; a successful
attempt keeps current_delay at or above the global floor, strictly
decreases it while it is above the floor, and leaves it at the floor
once reached; current_delay never drops below min_delay after any of
the three attempt outcomes; and all three outcomes preserve the
invariant, so these facts hold along any run from a well-formed initial
state. -/
theorem c4_rate_limiter_monotonicity (s : OyezScraping.RateLimiterState)
    (msg : String) (h : OyezScraping.RLInv s) :
    (OyezScraping.isRateLimitError msg = true →
      (OyezScraping.onFailure s msg).currentDelay ≤ s.maxDelay ∧
      (s.currentDelay < s.maxDelay →
        s.currentDelay < (OyezScraping.onFailure s msg).currentDelay)) ∧
    (s.globalDelayFloor ≤ (OyezScraping.onSuccess s).currentDelay ∧
      (s.globalDelayFloor < s.currentDelay →
        (OyezScraping.onSuccess s).currentDelay < s.currentDelay) ∧
      (s.currentDelay = s.globalDelayFloor →
        (OyezScraping.onSuccess s).currentDelay = s.globalDelayFloor)) ∧
    (s.minDelay ≤ (OyezScraping.onSuccess s).currentDelay ∧
      s.minDelay ≤ (OyezScraping.onFailure s msg).currentDelay ∧
      s.minDelay ≤ (OyezScraping.onOtherFailure s).currentDelay) ∧
    (OyezScraping.RLInv (OyezScraping.onSuccess s) ∧
      OyezScraping.RLInv (OyezScraping.onFailure s msg) ∧
      OyezScraping.RLInv (OyezScraping.onOtherFailure s)) := by
  have hfloor0 : 0 < s.globalDelayFloor := lt_of_lt_of_le h.minPos h.minFloor
  have hcur0 : 0 < s.currentDelay := lt_of_lt_of_le hfloor0 h.floorCur
  have hinvS := OyezScraping.rlInv_onSuccess h
  have hinvF := OyezScraping.rlInv_onFailure h msg
  have hinvO := OyezScraping.rlInv_onOtherFailure h
  refine ⟨?_, ⟨?_, ?_, ?_⟩, ⟨?_, ?_, ?_⟩, hinvS, hinvF, hinvO⟩
  · intro hmsg
    have hf : OyezScraping.onFailure s msg = OyezScraping.onRateLimitFailure s := by
      unfold OyezScraping.onFailure
      rw [if_pos hmsg]
    rw [hf]
    refine ⟨min_le_left _ _, fun hlt => ?_⟩
    have hgrow : s.currentDelay < s.currentDelay * s.backoffFactor := by
      nlinarith [h.bf2, hcur0]
    exact lt_min hlt hgrow
  · rcases OyezScraping.onSuccess_currentDelay s with hc | hc <;> rw [hc] <;>
      exact le_max_left _ _
  · intro hlt
    rcases OyezScraping.onSuccess_currentDelay s with hc | hc <;> rw [hc]
    · exact max_lt hlt (by nlinarith [h.rfPos, h.rfLt1, hcur0])
    · exact max_lt hlt (by nlinarith [h.rfPos, h.rfLt1, hcur0])
  · intro heq
    rcases OyezScraping.onSuccess_currentDelay s with hc | hc <;> rw [hc, heq]
    · exact max_eq_left (by nlinarith [h.rfPos, h.rfLt1, hfloor0])
    · exact max_eq_left (by nlinarith [h.rfPos, h.rfLt1, hfloor0])
  · have hm := le_trans hinvS.minFloor hinvS.floorCur
    rwa [OyezScraping.onSuccess_minDelay] at hm
  · have hm := le_trans hinvF.minFloor hinvF.floorCur
    rwa [OyezScraping.onFailure_minDelay] at hm
  · exact le_trans hinvO.minFloor hinvO.floorCur

/-- Witness for claim C4 at the default limiter and a 429 error text:
the backoff strictly raises the 1-second delay, a success strictly
lowers it, and it stays at or above min_delay. -/
theorem c4_rate_limiter_monotonicity_witness :
    OyezScraping.defaultRateLimiter.currentDelay <
      (OyezScraping.onFailure OyezScraping.defaultRateLimiter
        "HTTP Error 429: Too Many Requests").currentDelay ∧
    (OyezScraping.onSuccess OyezScraping.defaultRateLimiter).currentDelay <
      OyezScraping.defaultRateLimiter.currentDelay ∧
    OyezScraping.defaultRateLimiter.minDelay ≤
      (OyezScraping.onSuccess OyezScraping.defaultRateLimiter).currentDelay := by
  have hinv : OyezScraping.RLInv OyezScraping.defaultRateLimiter := by
    constructor <;>
      norm_num [OyezScraping.defaultRateLimiter, OyezScraping.initRateLimiter]
  have hthm := c4_rate_limiter_monotonicity OyezScraping.defaultRateLimiter
    "HTTP Error 429: Too Many Requests" hinv
  refine ⟨(hthm.1 (by decide)).2 ?_, hthm.2.1.2.1 ?_, hthm.2.2.1.1⟩ <;>
    norm_num [OyezScraping.defaultRateLimiter, OyezScraping.initRateLimiter]

/-- Claim C5: when a rate-limit failure arrives with the consecutive
failure count reaching at least 3, the global delay floor does not
decrease and its new value is at most half the (new) current delay. -/
theorem c5_global_floor_raise (s : OyezScraping.RateLimiterState)
    (h : OyezScraping.RLInv s) (h3 : 3 ≤ s.consecutiveFailures + 1) :
    s.globalDelayFloor ≤ (OyezScraping.onRateLimitFailure s).globalDelayFloor ∧
    (OyezScraping.onRateLimitFailure s).globalDelayFloor ≤
      (OyezScraping.onRateLimitFailure s).currentDelay * (1 / 2) := by
  have hfloor0 : 0 < s.globalDelayFloor := lt_of_lt_of_le h.minPos h.minFloor
  have hcur0 : 0 < s.currentDelay := lt_of_lt_of_le hfloor0 h.floorCur
  have hgrow : 2 * s.currentDelay ≤ s.currentDelay * s.backoffFactor := by
    nlinarith [h.bf2, hcur0]
  have hcurNew_ge : 2 * s.globalDelayFloor ≤
      min s.maxDelay (s.currentDelay * s.backoffFactor) :=
    le_min h.floorMax (by linarith [h.floorCur])
  unfold OyezScraping.onRateLimitFailure
  simp only
  rw [if_pos h3]
  exact ⟨le_min (by linarith [hcurNew_ge]) (by linarith [hfloor0]), min_le_left _ _⟩

/-- Witness for claim C5: the default limiter after two consecutive
failures, hit by a third rate-limit failure. -/
theorem c5_global_floor_raise_witness :
    OyezScraping.twoFailuresState.globalDelayFloor ≤
      (OyezScraping.onRateLimitFailure OyezScraping.twoFailuresState).globalDelayFloor ∧
    (OyezScraping.onRateLimitFailure OyezScraping.twoFailuresState).globalDelayFloor ≤
      (OyezScraping.onRateLimitFailure OyezScraping.twoFailuresState).currentDelay * (1 / 2) :=
  c5_global_floor_raise OyezScraping.twoFailuresState
    (by
      constructor <;>
        norm_num [OyezScraping.twoFailuresState, OyezScraping.defaultRateLimiter,
          OyezScraping.initRateLimiter])
    (by decide)

/-- Claim C2: with pages of sizes [2,2,2,1,0] and per_page=2, the
pagination driver yields exactly the 7 items of the first four pages in
order, making exactly 5 page-fetch calls when
continue_pagination_on_partial_page is true and exactly 4 when it is
false. -/
theorem c2_pagination_termination :
    OyezScraping.iterPaginatedResource OyezScraping.c2fetch (some 2) true 100 =
      { items := OyezScraping.c2items, calls := 5 } ∧
    OyezScraping.iterPaginatedResource OyezScraping.c2fetch (some 2) false 100 =
      { items := OyezScraping.c2items, calls := 4 } := by
  constructor <;> rfl

/-- Claim C1, evaluated at the failing input: against a remote serving
four full pages of MAX_PAGE_SIZE = 1000 cases and nothing after, the
auto-paginating list operation returns only the 3000 items of pages 0-2
(it never requests page 3), and with a term filter only the 1000 items
of page 0, whereas fetching pages until one is empty or short, as the
claim states, yields all 4000 items. -/
theorem c1_auto_paginate_truncated :
    (OyezScraping.getAllCasesAuto OyezScraping.c1get false).map List.length =
      .ok 3000 ∧
    (OyezScraping.getCasesByTermAuto OyezScraping.c1get "2020" false).map List.length =
      .ok 1000 ∧
    (OyezScraping.claimedAutoPaginate OyezScraping.c1get false
        OyezScraping.MaxPageSize none 100 0 []).length = 4000 := by
  refine ⟨?_, ?_, ?_⟩
  · rw [OyezScraping.getAllCasesAuto_c1get]
    simp only [Except.map, List.length_replicate]
    rfl
  · rw [OyezScraping.getCasesByTermAuto_c1get]
    simp only [Except.map, List.length_replicate]
    rfl
  · rw [OyezScraping.claimedAutoPaginate_c1get_length 100 0 [] (by omega) (by omega)]
    rfl

/-- Claim C9: when get_case_by_id receives a list response it returns the
first element, raising the not-found error when the list is empty; a
response that is neither a list nor a dict raises the response-format
error. -/
theorem c9_get_case_by_id_shapes (get : String → Json) (term docket : String) :
    (∀ x xs, get ("cases/" ++ (term ++ "/" ++ docket)) = .list (x :: xs) →
      OyezScraping.getCaseById get term docket = .ok x) ∧
    (get ("cases/" ++ (term ++ "/" ++ docket)) = .list [] →
      OyezScraping.getCaseById get term docket =
        .error (.notFound ("No case found with ID " ++ (term ++ "/" ++ docket)))) ∧
    (Json.isList (get ("cases/" ++ (term ++ "/" ++ docket))) = false →
      Json.isDict (get ("cases/" ++ (term ++ "/" ++ docket))) = false →
      OyezScraping.getCaseById get term docket =
        .error (.responseFormat "Expected dictionary")) := by
  refine ⟨?_, ?_, ?_⟩
  · intro x xs h
    simp only [OyezScraping.getCaseById, h]
  · intro h
    simp only [OyezScraping.getCaseById, h]
  · intro hl hd
    cases hresp : get ("cases/" ++ (term ++ "/" ++ docket)) with
    | dict fields => simp [Json.isDict, hresp] at hd
    | list xs => simp [Json.isList, hresp] at hl
    | str s => simp only [OyezScraping.getCaseById, hresp]
    | num n => simp only [OyezScraping.getCaseById, hresp]
    | null => simp only [OyezScraping.getCaseById, hresp]

/-- Witness for claim C9 at concrete responses: a two-element list
response, an empty list response, and a bare number response. -/
theorem c9_get_case_by_id_shapes_witness :
    OyezScraping.getCaseById (fun _ => Json.list [Json.dict [], Json.num 5])
      "2019" "17-1618" = .ok (Json.dict []) ∧
    OyezScraping.getCaseById (fun _ => Json.list []) "2019" "17-1618" =
      .error (.notFound "No case found with ID 2019/17-1618") ∧
    OyezScraping.getCaseById (fun _ => Json.num 7) "2019" "17-1618" =
      .error (.responseFormat "Expected dictionary") :=
  ⟨(c9_get_case_by_id_shapes _ "2019" "17-1618").1 _ _ rfl,
   (c9_get_case_by_id_shapes _ "2019" "17-1618").2.1 rfl,
   (c9_get_case_by_id_shapes _ "2019" "17-1618").2.2 rfl rfl⟩

/-- Claim C3: scrape_case on a record id absent from the cache performs
exactly one network fetch and one cache write; on a cached record id
(with force_refresh false) it performs zero network calls and returns
the cached data; hence a second call right after a first successful
call returns identical data without touching the network. -/
theorem c3_idempotent_fetch (net : String → String → Json) (term docket : String) :
    (∀ c : OyezScraping.CaseCache,
      OyezScraping.caseExists c (term ++ "/" ++ docket) = false →
      OyezScraping.scrapeCase net c term docket false =
        .ok { data := net term docket,
              cache := OyezScraping.storeCaseData c (term ++ "/" ++ docket) (net term docket),
              netCalls := 1, cacheWrites := 1 }) ∧
    (∀ (c : OyezScraping.CaseCache) (d : Json),
      OyezScraping.getCaseData c (term ++ "/" ++ docket) = .ok d →
      OyezScraping.scrapeCase net c term docket false =
        .ok { data := d, cache := c, netCalls := 0, cacheWrites := 0 }) ∧
    (∀ (c : OyezScraping.CaseCache) (r : OyezScraping.ScrapeOutcome),
      OyezScraping.caseExists c (term ++ "/" ++ docket) = false →
      OyezScraping.scrapeCase net c term docket false = .ok r →
      OyezScraping.scrapeCase net r.cache term docket false =
        .ok { data := r.data, cache := r.cache, netCalls := 0, cacheWrites := 0 }) := by
  have habs : ∀ c : OyezScraping.CaseCache,
      OyezScraping.caseExists c (term ++ "/" ++ docket) = false →
      OyezScraping.scrapeCase net c term docket false =
        .ok { data := net term docket,
              cache := OyezScraping.storeCaseData c (term ++ "/" ++ docket) (net term docket),
              netCalls := 1, cacheWrites := 1 } := by
    intro c hc
    unfold OyezScraping.scrapeCase
    rw [if_neg]
    intro hcontra
    rw [hc] at hcontra
    exact absurd hcontra.2 (by simp)
  have hcached : ∀ (c : OyezScraping.CaseCache) (d : Json),
      OyezScraping.getCaseData c (term ++ "/" ++ docket) = .ok d →
      OyezScraping.scrapeCase net c term docket false =
        .ok { data := d, cache := c, netCalls := 0, cacheWrites := 0 } := by
    intro c d hd
    have hex : OyezScraping.caseExists c (term ++ "/" ++ docket) = true := by
      by_contra hne
      have hf : OyezScraping.caseExists c (term ++ "/" ++ docket) = false := by
        cases h : OyezScraping.caseExists c (term ++ "/" ++ docket)
        · rfl
        · exact absurd h hne
      unfold OyezScraping.getCaseData at hd
      rw [hf] at hd
      simp at hd
    unfold OyezScraping.scrapeCase
    rw [if_pos ⟨rfl, hex⟩, hd]
  refine ⟨habs, hcached, ?_⟩
  intro c r hc h1
  have heq : OyezScraping.ScrapeOutcome.mk (net term docket)
      (OyezScraping.storeCaseData c (term ++ "/" ++ docket) (net term docket)) 1 1 = r := by
    have := (habs c hc).symm.trans h1
    exact Except.ok.inj this
  rw [← heq]
  exact hcached _ _ (OyezScraping.getCaseData_storeCaseData c (term ++ "/" ++ docket) (net term docket))

/-- Witness for claim C3: a concrete record id against the empty cache,
then the same call against the cache the first call produced. -/
theorem c3_idempotent_fetch_witness :
    OyezScraping.scrapeCase OyezScraping.c3net OyezScraping.emptyCaseCache
        "2019" "17-1618" false =
      .ok { data := OyezScraping.c3net "2019" "17-1618",
            cache := OyezScraping.storeCaseData OyezScraping.emptyCaseCache
              ("2019" ++ "/" ++ "17-1618") (OyezScraping.c3net "2019" "17-1618"),
            netCalls := 1, cacheWrites := 1 } ∧
    OyezScraping.scrapeCase OyezScraping.c3net
        (OyezScraping.storeCaseData OyezScraping.emptyCaseCache
          ("2019" ++ "/" ++ "17-1618") (OyezScraping.c3net "2019" "17-1618"))
        "2019" "17-1618" false =
      .ok { data := OyezScraping.c3net "2019" "17-1618",
            cache := OyezScraping.storeCaseData OyezScraping.emptyCaseCache
              ("2019" ++ "/" ++ "17-1618") (OyezScraping.c3net "2019" "17-1618"),
            netCalls := 0, cacheWrites := 0 } := by
  have h := c3_idempotent_fetch OyezScraping.c3net "2019" "17-1618"
  have h1 := h.1 OyezScraping.emptyCaseCache rfl
  exact ⟨h1, h.2.2 OyezScraping.emptyCaseCache _ rfl h1⟩

/-- Claim C6: after mark_failed has hit an item maxRetryAttempts + 1
times its entry carries attempts = maxRetryAttempts + 1 and the item is
excluded from get_failed_items_for_retry; that method returns exactly
the failed items whose attempts count is at most the retry limit; and
mark_successful removes an item from the failed set entirely. -/
theorem c6_retry_bounding :
    (∀ (t : OyezScraping.DownloadTracker) (id : String) (d : Json),
      (t.failedItems.map Prod.fst).Nodup →
      OyezScraping.lookupAssoc t.failedItems id = none →
      OyezScraping.lookupAssoc
          (OyezScraping.markFailedTimes t id d (t.maxRetryAttempts + 1)).failedItems id =
        some { itemData := d, attempts := t.maxRetryAttempts + 1 } ∧
      ∀ x, (id, x) ∉ OyezScraping.getFailedItemsForRetry
          (OyezScraping.markFailedTimes t id d (t.maxRetryAttempts + 1))) ∧
    (∀ (t : OyezScraping.DownloadTracker) (id : String) (x : Json),
      (id, x) ∈ OyezScraping.getFailedItemsForRetry t ↔
        ∃ it : OyezScraping.FailedItem, (id, it) ∈ t.failedItems ∧
          it.attempts ≤ t.maxRetryAttempts ∧ x = it.itemData) ∧
    (∀ (t : OyezScraping.DownloadTracker) (id : String),
      OyezScraping.lookupAssoc (OyezScraping.markSuccessful t id).failedItems id = none ∧
      ∀ x, (id, x) ∉ OyezScraping.getFailedItemsForRetry (OyezScraping.markSuccessful t id)) := by
  refine ⟨?_, OyezScraping.mem_getFailedItemsForRetry, ?_⟩
  · intro t id d hnd habs
    obtain ⟨hl, hm, hn⟩ := OyezScraping.markFailedTimes_lookup d hnd habs t.maxRetryAttempts
    refine ⟨hl, ?_⟩
    intro x hx
    rw [OyezScraping.mem_getFailedItemsForRetry] at hx
    obtain ⟨it, hmem, hle, _⟩ := hx
    have hit := (OyezScraping.mem_iff_lookupAssoc hn id it).mp hmem
    rw [hl] at hit
    injection hit with hit
    rw [← hit, hm] at hle
    change t.maxRetryAttempts + 1 ≤ t.maxRetryAttempts at hle
    omega
  · intro t id
    refine ⟨OyezScraping.lookupAssoc_filter_ne t.failedItems id, ?_⟩
    intro x hx
    rw [OyezScraping.mem_getFailedItemsForRetry] at hx
    obtain ⟨it, hmem, _, _⟩ := hx
    have : ((id, it) : String × OyezScraping.FailedItem).1 ≠ id := by
      have hf := List.mem_filter.mp hmem
      exact of_decide_eq_true hf.2
    exact this rfl

/-- Witness for claim C6: a fresh tracker with the default retry limit
of 3, one item failed 4 times, and a one-item tracker marked
successful. -/
theorem c6_retry_bounding_witness :
    OyezScraping.lookupAssoc
        (OyezScraping.markFailedTimes OyezScraping.c6FreshTracker "a" Json.null
          (OyezScraping.c6FreshTracker.maxRetryAttempts + 1)).failedItems "a" =
      some { itemData := Json.null,
             attempts := OyezScraping.c6FreshTracker.maxRetryAttempts + 1 } ∧
    ("a", Json.null) ∉ OyezScraping.getFailedItemsForRetry
      (OyezScraping.markFailedTimes OyezScraping.c6FreshTracker "a" Json.null
        (OyezScraping.c6FreshTracker.maxRetryAttempts + 1)) ∧
    OyezScraping.lookupAssoc
      (OyezScraping.markSuccessful OyezScraping.c6FailedTracker "a").failedItems "a" = none :=
  ⟨(c6_retry_bounding.1 OyezScraping.c6FreshTracker "a" Json.null (by decide) rfl).1,
   (c6_retry_bounding.1 OyezScraping.c6FreshTracker "a" Json.null (by decide) rfl).2 Json.null,
   (c6_retry_bounding.2.2 OyezScraping.c6FailedTracker "a").1⟩

/-- Claim C8: a missing persistence file, or one that cannot be read or
parsed, leaves the constructed DownloadTracker with an empty failed set;
the construction is total in the model (the outer except absorbs every
exception, including a failing directory creation or save), so nothing
propagates to the caller. -/
theorem c8_corrupt_tracker_starts_empty (fs : OyezScraping.TrackerFileState)
    (mkdirResult saveResult : Except String Unit) (m : Nat)
    (h : fs = .missing ∨ ∃ e, fs = .unreadable e) :
    (OyezScraping.constructTracker fs mkdirResult saveResult m).failedItems = [] := by
  rcases h with h | ⟨e, h⟩ <;> subst h
  · cases mkdirResult <;> rfl
  · rfl

/-- Witness for claim C8: a missing file with a failing directory
creation and save, and a corrupt file. -/
theorem c8_corrupt_tracker_starts_empty_witness :
    (OyezScraping.constructTracker .missing (.error "mkdir failed")
      (.error "disk full") 3).failedItems = [] ∧
    (OyezScraping.constructTracker (.unreadable "Expecting value: line 1 column 1")
      (.ok ()) (.ok ()) 3).failedItems = [] :=
  ⟨c8_corrupt_tracker_starts_empty _ _ _ 3 (Or.inl rfl),
   c8_corrupt_tracker_starts_empty _ _ _ 3 (Or.inr ⟨_, rfl⟩)⟩

/-- Claim C10: after any sequence of mark_failed, mark_successful and
reset operations, get_stats returns total_failed = retriable +
permanent_failures, the two buckets counting the failed items with
attempts at most, respectively above, the retry limit. -/
theorem c10_stats_partition (t0 : OyezScraping.DownloadTracker)
    (ops : List OyezScraping.TrackerOp) :
    (OyezScraping.getStats (OyezScraping.applyTrackerOps t0 ops)).totalFailed =
      (OyezScraping.getStats (OyezScraping.applyTrackerOps t0 ops)).retriable +
        (OyezScraping.getStats (OyezScraping.applyTrackerOps t0 ops)).permanentFailures :=
  OyezScraping.getStats_partition _

/-- Claim C7, counterexample to exactly-one-download: two callers
against a cold cache, where thread 1 performs the entire download while
thread 0 sits between its cache check and the lock acquisition.  Both
callers run to completion, the asset ends up cached, yet two network
downloads are performed, because download_audio_file does not recheck
the cache after acquiring the lock. -/
theorem c7_two_downloads_counterexample :
    (OyezScraping.dlRun (OyezScraping.dlInit 2) OyezScraping.c7Schedule).downloads = 2 ∧
    (OyezScraping.dlRun (OyezScraping.dlInit 2) OyezScraping.c7Schedule).threads =
      [OyezScraping.DlPc.done, OyezScraping.DlPc.done] ∧
    (OyezScraping.dlRun (OyezScraping.dlInit 2) OyezScraping.c7Schedule).cached = true := by
  decide

/-- Claim C7 (amended): for every number of concurrent callers of
download_audio_file on the same asset key against a cold cache and
every interleaving, at most one network fetch is in flight at any time
— a caller that observes the in-progress entry under the lock waits on
its event instead of downloading. -/
theorem c7_at_most_one_inflight (n : Nat) (sched : List Nat) :
    ((OyezScraping.dlRun (OyezScraping.dlInit n) sched).threads.countP
      OyezScraping.inFlight) ≤ 1 := by
  have h := OyezScraping.dlInv_run (OyezScraping.dlInv_init n) sched
  unfold OyezScraping.DlInv at h
  rw [h]
  split <;> omega
